import Mathlib

/-!
Shallow embedding of the Task-Management backend's task/subtask lifecycle
core (controller `task.controller.js`, schemas `task.js` / `subTask.js`,
middleware `authUtil.js`) and proofs of the spec's claims about it.

Modelling conventions:
* Mongo ObjectIds are modelled as natural numbers; a database value carries a
  `nextId` counter from which newly saved documents draw their identifier.
* JS `Date` values are instants modelled as integers (ms since epoch); an
  unparseable date string (JS `Invalid Date`) is modelled by the date parser
  returning `none`, so that the JS comparison `invalid > now` being `false`
  is reflected by the `Option` match.
* A request body field that is absent/`undefined` is `none`; an empty string
  `some ""` is present but falsy, exactly as in JS truthiness tests.
* Each request runs against one environment `Env` fixing the date parser and
  the current instant (every `new Date()` taken during one request is the
  same instant).
* Mongoose `findOneAndUpdate`/`updateMany` with a plain object update are
  `$set` updates; keys whose value is `undefined` are stripped from the
  update (Mongoose default), modelled by `Option.getD` against the stored
  field.
-/

namespace TaskMgmt

/-- Mongo ObjectId, modelled as a natural number. -/
abbrev ObjId := Nat

/-- An instant (ms since epoch). -/
abbrev Time := Int

/-- Per-request environment: the JS date parser (`new Date(string)`, `none`
for `Invalid Date`) and the current instant (`new Date()` / `Date.now`). -/
structure Env where
  parseDate : String → Option Time
  now : Time

/-- JS truthiness of an optional string body field: absent/`undefined` and
the empty string are falsy. -/
def truthy : Option String → Bool
  | none => false
  | some s => !s.isEmpty

/-- `PENDING` from `src/constant/enum.js` (value as recorded in the repo's
schema documentation). -/
def PENDING : String := "pending"

/-- `IN_PROGRESS` from `src/constant/enum.js`. -/
def IN_PROGRESS : String := "in-progress"

/-- `COMPLETED` from `src/constant/enum.js`. -/
def COMPLETED : String := "completed"

/-- `const validStatuses = [PENDING, IN_PROGRESS, COMPLETED]`. -/
def validStatuses : List String := [PENDING, IN_PROGRESS, COMPLETED]

/-- `isValidFutureDate`: `new Date(dateString) > new Date()`; an invalid
parse compares `false`. -/
def isValidFutureDate (env : Env) (dateString : String) : Bool :=
  match env.parseDate dateString with
  | none => false
  | some d => env.now < d

/-- A `task` document (schema `task.js`). -/
structure Task where
  _id : ObjId
  subject : String
  deadline : Time
  status : String
  createdBy : ObjId
  subtasks : List ObjId
  is_deleted : Bool
  created_at : Time
  updated_at : Time
deriving Repr, DecidableEq

/-- A `subTask` document (schema `subTask.js`). -/
structure SubTask where
  _id : ObjId
  subject : String
  deadline : Time
  status : String
  taskId : ObjId
  is_deleted : Bool
  created_at : Time
  updated_at : Time
deriving Repr, DecidableEq

/-- The entity store: both collections plus the id-allocation counter. -/
structure DB where
  tasks : List Task
  subtasks : List SubTask
  nextId : ObjId
deriving Repr, DecidableEq

/-- The query filter `{_id: taskId, createdBy: u, is_deleted: false}` used by
every owner-scoped task lookup in the controller. -/
def activeOwned (taskId : ObjId) (u : ObjId) (t : Task) : Bool :=
  t._id == taskId && t.createdBy == u && t.is_deleted == false

/-- `findOneAndUpdate`: apply `f` to the first document matching `p`. -/
def updateFirst (p : Task → Bool) (f : Task → Task) : List Task → List Task
  | [] => []
  | t :: ts => if p t then f t :: ts else t :: updateFirst p f ts

/-- Outcome of `createTask` (HTTP status in parentheses). -/
inductive CreateTaskResult where
  /-- 400, `unauthorised - userId is a required field.` -/
  | unauthorised
  /-- 400, `subject, deadline, and status are required fields.` -/
  | missingFields
  /-- 400, `Deadline must be a future date` -/
  | badDeadline
  /-- 400, `status must be one of pending, in-progress or completed.` -/
  | badStatus
  /-- 201, the saved task. -/
  | created (t : Task)
deriving Repr, DecidableEq

/-- The 400 validation outcomes of `createTask` (missing field, non-future
deadline, out-of-enum status). -/
def CreateTaskResult.isValidationError : CreateTaskResult → Bool
  | .missingFields => true
  | .badDeadline => true
  | .badStatus => true
  | _ => false

/-- `createTask` from `task.controller.js`: guards on `req.user.userId`,
required-field truthiness, future deadline and status enum, then saves a new
task (schema defaults: empty `subtasks`, `is_deleted := false`, timestamps
`Date.now`). -/
def createTask (env : Env) (db : DB) (userId : Option ObjId)
    (subject deadline status : Option String) : CreateTaskResult × DB :=
  match userId with
  | none => (.unauthorised, db)
  | some u =>
    if !truthy subject || !truthy deadline || !truthy status then
      (.missingFields, db)
    else if !isValidFutureDate env (deadline.getD "") then
      (.badDeadline, db)
    else if !validStatuses.contains (status.getD "") then
      (.badStatus, db)
    else
      let t : Task :=
        { _id := db.nextId
          subject := subject.getD ""
          deadline := (env.parseDate (deadline.getD "")).getD 0
          status := status.getD ""
          createdBy := u
          subtasks := []
          is_deleted := false
          created_at := env.now
          updated_at := env.now }
      (.created t, { db with tasks := db.tasks ++ [t], nextId := db.nextId + 1 })

/-- Outcome of `getTasks`: each returned task paired with its populated
active subtasks. -/
inductive GetTasksResult where
  /-- 400, `unauthorised - userId is a required field.` -/
  | unauthorised
  /-- 200, the owner's active tasks with active subtasks attached. -/
  | ok (l : List (Task × List SubTask))
deriving Repr, DecidableEq

/-- Mongoose `populate({path: subtasks, match: {is_deleted: false}})` on the
task's subtask-reference array: each id resolves to its document, and ids
whose document is missing or fails the match are dropped from the array. -/
def populateActive (db : DB) (ids : List ObjId) : List SubTask :=
  ids.filterMap fun i =>
    match db.subtasks.find? (fun s => s._id == i) with
    | none => none
    | some s => if s.is_deleted then none else some s

/-- `getTasks`: `Task.find({createdBy: userId, is_deleted: false})` with the
filtered populate of each task's subtask list. -/
def getTasks (db : DB) (userId : Option ObjId) : GetTasksResult :=
  match userId with
  | none => .unauthorised
  | some u =>
    .ok (((db.tasks.filter fun t => t.createdBy == u && t.is_deleted == false).map
      fun t => (t, populateActive db t.subtasks)))

/-- Outcome of `updateTask`. -/
inductive UpdateTaskResult where
  /-- 400, `unauthorised - userId is a required field.` -/
  | unauthorised
  /-- 400, `Deadline must be a future date` -/
  | badDeadline
  /-- 400, `status must be one of pending, in-progress, completed` -/
  | badStatus
  /-- 404, `Task not found` -/
  | notFound
  /-- 200, the updated task (`new: true`). -/
  | ok (t : Task)
deriving Repr, DecidableEq

/-- The `$set` document `updateFields` of `updateTask`: `subject` and
`status` keys always present (stripped when `undefined`), `updated_at` set
to now, `deadline` only when the request value was truthy. -/
def applyTaskUpdate (env : Env) (subject status : Option String)
    (deadlineUpd : Option Time) (t : Task) : Task :=
  { t with
    subject := subject.getD t.subject
    status := status.getD t.status
    deadline := deadlineUpd.getD t.deadline
    updated_at := env.now }

/-- `updateTask` from `task.controller.js`: validates a supplied deadline
and status first, then `findOneAndUpdate` on the active+owner filter. -/
def updateTask (env : Env) (db : DB) (userId : Option ObjId) (taskId : ObjId)
    (subject deadline status : Option String) : UpdateTaskResult × DB :=
  match userId with
  | none => (.unauthorised, db)
  | some u =>
    if truthy deadline && !isValidFutureDate env (deadline.getD "") then
      (.badDeadline, db)
    else if truthy status && !validStatuses.contains (status.getD "") then
      (.badStatus, db)
    else
      let deadlineUpd : Option Time :=
        if truthy deadline then env.parseDate (deadline.getD "") else none
      match db.tasks.find? (activeOwned taskId u) with
      | none => (.notFound, db)
      | some t0 =>
        let newTasks :=
          updateFirst (activeOwned taskId u)
            (applyTaskUpdate env subject status deadlineUpd) db.tasks
        (.ok (applyTaskUpdate env subject status deadlineUpd t0),
         { db with tasks := newTasks })

/-- Outcome of `deleteTask`. -/
inductive DeleteTaskResult where
  /-- 400, `unauthorised - userId is a required field.` -/
  | unauthorised
  /-- 404, `Task not found` -/
  | notFound
  /-- 200, `Task deleted successfully` -/
  | ok
deriving Repr, DecidableEq

/-- The `$set` of the cascade `SubTask.updateMany({taskId, is_deleted:
false}, ...)`: subtasks of the task that are still active are marked
deleted with a refreshed timestamp; all others are left as stored. -/
def cascadeMark (env : Env) (taskId : ObjId) (s : SubTask) : SubTask :=
  if s.taskId == taskId && s.is_deleted == false then
    { s with is_deleted := true, updated_at := env.now }
  else s

/-- `deleteTask` from `task.controller.js`: `findOneAndUpdate` soft-deletes
the active owned task (404 when no match), then `updateMany` soft-deletes
its still-active subtasks. -/
def deleteTask (env : Env) (db : DB) (userId : Option ObjId) (taskId : ObjId) :
    DeleteTaskResult × DB :=
  match userId with
  | none => (.unauthorised, db)
  | some u =>
    match db.tasks.find? (activeOwned taskId u) with
    | none => (.notFound, db)
    | some _ =>
      let newTasks :=
        updateFirst (activeOwned taskId u)
          (fun t => { t with is_deleted := true, updated_at := env.now }) db.tasks
      (.ok,
       { db with
         tasks := newTasks
         subtasks := db.subtasks.map (cascadeMark env taskId) })

/-- One entry of the `subtasks` array in the bulk-replace request body. -/
structure SubtaskSpec where
  subject : Option String
  deadline : Option String
  status : Option String
deriving Repr, DecidableEq

/-- Outcome of `updateSubtasks` (bulk replace). -/
inductive UpdateSubtasksResult where
  /-- 404, `Task not found` -/
  | notFound
  /-- 400, `subtasks must be an array` -/
  | notArray
  /-- 400, `subject and deadline are required fields for subtask.` -/
  | missingFields
  /-- 400, `Deadline must be a future date` -/
  | badDeadline
  /-- 400, `status must be one of pending, in-progress, completed` -/
  | badStatus
  /-- 200, the new subtasks. -/
  | ok (l : List SubTask)
deriving Repr, DecidableEq

/-- The per-spec 400 validation outcomes of `updateSubtasks`. -/
def UpdateSubtasksResult.isValidationError : UpdateSubtasksResult → Bool
  | .missingFields => true
  | .badDeadline => true
  | .badStatus => true
  | _ => false

/-- The validation loop of `updateSubtasks`: first offending spec decides
the error, in source order of the checks. -/
def firstSpecError (env : Env) : List SubtaskSpec → Option UpdateSubtasksResult
  | [] => none
  | sp :: sps =>
    if !truthy sp.subject || !truthy sp.deadline then some .missingFields
    else if !isValidFutureDate env (sp.deadline.getD "") then some .badDeadline
    else if truthy sp.status && !validStatuses.contains (sp.status.getD "") then
      some .badStatus
    else firstSpecError env sps

/-- A spec failing some check of the validation loop. -/
def specInvalid (env : Env) (sp : SubtaskSpec) : Bool :=
  !truthy sp.subject || !truthy sp.deadline ||
    !isValidFutureDate env (sp.deadline.getD "") ||
    (truthy sp.status && !validStatuses.contains (sp.status.getD ""))

/-- The creation loop of `updateSubtasks`: each spec is saved as a brand-new
`subTask` document (fresh id drawn from the counter, status defaulting to
`PENDING` when falsy, schema defaults for the remaining fields). -/
def mkNewSubtasks (env : Env) (taskId : ObjId) (startId : ObjId) :
    List SubtaskSpec → List SubTask
  | [] => []
  | sp :: sps =>
    { _id := startId
      subject := sp.subject.getD ""
      deadline := (env.parseDate (sp.deadline.getD "")).getD 0
      status := if truthy sp.status then sp.status.getD "" else PENDING
      taskId := taskId
      is_deleted := false
      created_at := env.now
      updated_at := env.now } :: mkNewSubtasks env taskId (startId + 1) sps

/-- `updateSubtasks` from `task.controller.js`: owner-scoped parent lookup
(404), array check (400), validation of every spec before any mutation,
then: soft-delete all still-active subtasks of the parent, save one new
subtask per spec, and `findByIdAndUpdate` the parent with the new reference
list and a refreshed timestamp. `req.user.userId` is supplied by the auth
middleware, so it is taken here as a plain identifier. -/
def updateSubtasks (env : Env) (db : DB) (userId : ObjId) (taskId : ObjId)
    (body : Option (List SubtaskSpec)) : UpdateSubtasksResult × DB :=
  match db.tasks.find? (activeOwned taskId userId) with
  | none => (.notFound, db)
  | some _ =>
    match body with
    | none => (.notArray, db)
    | some specs =>
      match firstSpecError env specs with
      | some e => (e, db)
      | none =>
        let newSubs := mkNewSubtasks env taskId db.nextId specs
        let newTasks :=
          updateFirst (fun t => t._id == taskId)
            (fun t => { t with subtasks := newSubs.map (fun s => s._id),
                               updated_at := env.now }) db.tasks
        (.ok newSubs,
         { db with
           tasks := newTasks
           subtasks := db.subtasks.map (cascadeMark env taskId) ++ newSubs
           nextId := db.nextId + specs.length })

end TaskMgmt

namespace AuthUtil

/-- What the `authenticateToken` middleware does with a request. -/
inductive AuthOutcome where
  /-- `res.status(403).json({message: "Unauthorized Access"})` — the
  authorization-denied condition. -/
  | denied
  /-- An exception escapes the middleware synchronously; Express converts
  it into a 500 response. The protected handler is not invoked. -/
  | thrown (msg : String)
  /-- `next()` reached: the protected handler runs. -/
  | proceed
deriving Repr, DecidableEq

/-- `authenticateToken` from `src/util/authUtil.js`, applied to the
`Authorization` header. When the header is absent or falsy, the 403 branch
answers. When a header is present, the code evaluates
`serverConfig.JWT_SECRET` as an argument of `jwt.verify` — but the module
imports `configVariables`, and no binding named `serverConfig` exists in
scope, so evaluation raises `ReferenceError` before any token verification
can happen, for every token (valid, invalid, malformed or expired alike). -/
def authenticateToken (authHeader : Option String) : AuthOutcome :=
  match authHeader with
  | none => .denied
  | some h =>
    if h.isEmpty then .denied
    else .thrown "ReferenceError: serverConfig is not defined"

end AuthUtil

namespace TaskMgmt

namespace Examples

/-- A concrete date parser for running the operations: the string `past`
is an instant before `env0.now`, `future` one after, everything else is an
invalid date. -/
def parse0 : String → Option Time := fun s =>
  if s = "past" then some 5 else if s = "future" then some 1000 else none

/-- A concrete request environment: current instant 100. -/
def env0 : Env := { parseDate := parse0, now := 100 }

/-- An active task owned by user 7 referencing subtasks 2 and 3. -/
def task1 : Task :=
  { _id := 1, subject := "T1", deadline := 1000, status := "pending"
    createdBy := 7, subtasks := [2, 3], is_deleted := false
    created_at := 0, updated_at := 0 }

/-- An active subtask of task 1. -/
def sub2 : SubTask :=
  { _id := 2, subject := "S2", deadline := 1000, status := "pending"
    taskId := 1, is_deleted := false, created_at := 0, updated_at := 0 }

/-- A subtask of task 1 that was already soft-deleted at instant 5. -/
def sub3 : SubTask :=
  { _id := 3, subject := "S3", deadline := 1000, status := "in-progress"
    taskId := 1, is_deleted := true, created_at := 0, updated_at := 5 }

/-- Store holding the active `task1` and its two subtasks. -/
def db0 : DB := { tasks := [task1], subtasks := [sub2, sub3], nextId := 4 }

/-- Store in which `task1` has already been soft-deleted. -/
def db1 : DB :=
  { tasks := [{ task1 with is_deleted := true }]
    subtasks := [sub2, sub3], nextId := 4 }

end Examples

end TaskMgmt

/-! ## Theorems -/

/-- C4: the claim fails on the code as a slip the repository's own
documentation contradicts. At the failing input — a request carrying a
malformed bearer token — the Access Gate does not report the
authorization-denied condition it reports for a missing header: the
middleware body evaluates `serverConfig.JWT_SECRET`, but the module binds
only `configVariables`, so a `ReferenceError` is raised before any
verification and Express answers with an internal error instead of 403.
The protected handler is still never invoked on either path. -/
theorem authenticateToken_reference_error :
    AuthUtil.authenticateToken none = AuthUtil.AuthOutcome.denied ∧
    AuthUtil.authenticateToken (some "Bearer bad.token.value") =
      AuthUtil.AuthOutcome.thrown "ReferenceError: serverConfig is not defined" ∧
    AuthUtil.authenticateToken (some "Bearer bad.token.value") ≠
      AuthUtil.authenticateToken none ∧
    AuthUtil.authenticateToken (some "Bearer bad.token.value") ≠
      AuthUtil.AuthOutcome.proceed := by
  refine ⟨rfl, rfl, ?_, ?_⟩ <;> decide

namespace TaskMgmt

/-- The Bool-level characterisation of `createTask` success: exactly the
three source guards pass. -/
theorem createTask_created_iff_checks (env : Env) (db : DB) (u : ObjId)
    (subject deadline status : Option String) :
    (∃ t, (createTask env db (some u) subject deadline status).1 =
        .created t) ↔
      (truthy subject = true ∧ truthy deadline = true ∧ truthy status = true ∧
       isValidFutureDate env (deadline.getD "") = true ∧
       validStatuses.contains (status.getD "") = true) := by
  constructor
  · rintro ⟨t, ht⟩
    simp only [createTask] at ht
    split_ifs at ht with h1 h2 h3
    simp at h1 h2 h3 ⊢
    tauto
  · rintro ⟨hs, hd, hst, hv, hc⟩
    simp only [createTask, hs, hd, hst, hv, hc, Bool.not_true, Bool.or_self,
      Bool.or_false, Bool.false_or, if_false]
    exact ⟨_, rfl⟩

/-- A body field is truthy exactly when it is present and non-empty. -/
theorem truthy_iff (o : Option String) :
    truthy o = true ↔ ∃ s, o = some s ∧ s ≠ "" := by
  cases o <;> simp [truthy, Bool.eq_false_iff, String.isEmpty_iff]

/-- The deadline guards of the controller pass exactly when the supplied
string parses to an instant strictly after the current time (given the JS
fact that the empty string is an invalid date). -/
theorem deadline_checks_iff (env : Env) (deadline : Option String)
    (hempty : env.parseDate "" = none) :
    (truthy deadline = true ∧
        isValidFutureDate env (deadline.getD "") = true) ↔
      ∃ ds d, deadline = some ds ∧ env.parseDate ds = some d ∧ env.now < d := by
  cases deadline with
  | none => simp [truthy]
  | some ds =>
    simp only [Option.getD_some, Option.some.injEq]
    constructor
    · rintro ⟨-, hv⟩
      unfold isValidFutureDate at hv
      cases hp : env.parseDate ds with
      | none => rw [hp] at hv; cases hv
      | some d =>
        rw [hp] at hv
        exact ⟨ds, d, rfl, hp, by simpa using hv⟩
    · rintro ⟨ds2, d, hds, hp, hlt⟩
      cases hds
      have hne : ds ≠ "" := by
        rintro rfl; rw [hempty] at hp; cases hp
      refine ⟨(truthy_iff _).mpr ⟨ds, rfl, hne⟩, ?_⟩
      unfold isValidFutureDate
      rw [hp]
      simpa using hlt

/-- The status guards of the controller pass exactly when the supplied
status is one of the three enum values. -/
theorem status_checks_iff (status : Option String) :
    (truthy status = true ∧
        validStatuses.contains (status.getD "") = true) ↔
      ∃ st, status = some st ∧ st ∈ validStatuses := by
  cases status with
  | none => simp [truthy]
  | some st =>
    simp only [Option.getD_some, Option.some.injEq]
    constructor
    · rintro ⟨-, hc⟩
      exact ⟨st, rfl, by simpa using hc⟩
    · rintro ⟨st2, hst, hm⟩
      cases hst
      have hne : st ≠ "" := by
        rintro rfl
        simp [validStatuses, PENDING, IN_PROGRESS, COMPLETED] at hm
      exact ⟨(truthy_iff _).mpr ⟨st, rfl, hne⟩, by simpa using hm⟩

/-- C1: with an authenticated owner, a create-task request succeeds —
returning the created task, which is appended to the store — iff the
subject is present and non-empty, the deadline parses to an instant
strictly after the current time, and the status is one of `pending`,
`in-progress`, `completed`; when any of these fails, the request fails
with a validation error and the store is unchanged. The hypothesis records
the JS fact that the empty string is an invalid date. -/
theorem createTask_validation_correct (env : Env) (db : DB) (u : ObjId)
    (subject deadline status : Option String)
    (hempty : env.parseDate "" = none) :
    ((∃ t, (createTask env db (some u) subject deadline status).1 =
        .created t) ↔
      ((∃ s, subject = some s ∧ s ≠ "") ∧
       (∃ ds d, deadline = some ds ∧ env.parseDate ds = some d ∧
         env.now < d) ∧
       (∃ st, status = some st ∧ st ∈ validStatuses))) ∧
    (∀ t, (createTask env db (some u) subject deadline status).1 =
        .created t →
      (createTask env db (some u) subject deadline status).2.tasks =
        db.tasks ++ [t]) ∧
    ((∀ t, (createTask env db (some u) subject deadline status).1 ≠
        .created t) →
      (createTask env db (some u) subject deadline
          status).1.isValidationError = true ∧
      (createTask env db (some u) subject deadline status).2 = db) := by
  refine ⟨?_, ?_, ?_⟩
  · rw [createTask_created_iff_checks]
    constructor
    · rintro ⟨hs, hd, hst, hv, hc⟩
      exact ⟨(truthy_iff subject).mp hs,
        (deadline_checks_iff env deadline hempty).mp ⟨hd, hv⟩,
        (status_checks_iff status).mp ⟨hst, hc⟩⟩
    · rintro ⟨hsA, hdB, hstC⟩
      obtain ⟨hd, hv⟩ := (deadline_checks_iff env deadline hempty).mpr hdB
      obtain ⟨hst, hc⟩ := (status_checks_iff status).mpr hstC
      exact ⟨(truthy_iff subject).mpr hsA, hd, hst, hv, hc⟩
  · intro t ht
    simp only [createTask] at ht ⊢
    split_ifs at ht ⊢ with h1 h2 h3
    cases ht
    rfl
  · intro hne
    simp only [createTask] at hne ⊢
    split_ifs at hne ⊢ with h1 h2 h3
    · exact ⟨rfl, rfl⟩
    · exact ⟨rfl, rfl⟩
    · exact ⟨rfl, rfl⟩
    · exact absurd rfl (hne _)

/-- C1 witness: a concrete successful creation under `Examples.env0`. -/
theorem createTask_validation_correct_witness :
    Examples.env0.parseDate "" = none ∧
    (∃ t, (createTask Examples.env0 Examples.db0 (some 7) (some "W")
        (some "future") (some "pending")).1 = .created t) :=
  ⟨by decide,
   (createTask_validation_correct Examples.env0 Examples.db0 7 (some "W")
       (some "future") (some "pending") (by decide)).1.mpr
     ⟨⟨"W", rfl, by decide⟩, ⟨"future", 1000, rfl, by decide, by decide⟩,
      ⟨"pending", rfl, by decide⟩⟩⟩

/-- `cascadeMark` never changes the parent reference. -/
theorem cascadeMark_taskId (env : Env) (tid : ObjId) (s : SubTask) :
    (cascadeMark env tid s).taskId = s.taskId := by
  unfold cascadeMark; split_ifs <;> rfl

/-- After `cascadeMark`, every subtask of the task is soft-deleted. -/
theorem cascadeMark_deleted (env : Env) (tid : ObjId) (s : SubTask)
    (h : s.taskId = tid) : (cascadeMark env tid s).is_deleted = true := by
  unfold cascadeMark
  split_ifs with hc
  · rfl
  · simp [h] at hc
    exact hc

/-- `cascadeMark` on a still-active subtask of the task: flag set, timestamp
refreshed. -/
theorem cascadeMark_of_active (env : Env) (tid : ObjId) (s : SubTask)
    (h : s.taskId = tid) (ha : s.is_deleted = false) :
    cascadeMark env tid s =
      { s with is_deleted := true, updated_at := env.now } := by
  unfold cascadeMark
  simp [h, ha]

/-- `cascadeMark` leaves an already-soft-deleted subtask untouched. -/
theorem cascadeMark_of_deleted (env : Env) (tid : ObjId) (s : SubTask)
    (h : s.is_deleted = true) : cascadeMark env tid s = s := by
  unfold cascadeMark
  simp [h]

/-- C6: when every stored task with the requested identifier and owner is
already soft-deleted, re-invoking delete answers not-found and leaves the
store untouched. -/
theorem deleteTask_on_deleted_notFound (env : Env) (db : DB)
    (u taskId : ObjId)
    (hdel : ∀ t ∈ db.tasks, t._id = taskId → t.createdBy = u →
      t.is_deleted = true) :
    deleteTask env db (some u) taskId = (.notFound, db) := by
  have hfind : db.tasks.find? (activeOwned taskId u) = none := by
    rw [List.find?_eq_none]
    intro t ht hp
    simp [activeOwned] at hp
    exact absurd (hdel t ht hp.1.1 hp.1.2) (by simp [hp.2])
  simp [deleteTask, hfind]

/-- C6 witness: deleting the already-deleted `task1` in `Examples.db1`. -/
theorem deleteTask_on_deleted_notFound_witness :
    (∀ t ∈ Examples.db1.tasks, t._id = 1 → t.createdBy = 7 →
      t.is_deleted = true) ∧
    deleteTask Examples.env0 Examples.db1 (some 7) 1 =
      (.notFound, Examples.db1) :=
  ⟨by decide,
   deleteTask_on_deleted_notFound Examples.env0 Examples.db1 7 1 (by decide)⟩

/-- C3 counterexample: in `Examples.db0` the subtask `sub3` of task 1 was
already soft-deleted (timestamp 5) before the delete call; the call
succeeds, yet that subtask's updated-timestamp is not refreshed to the
call's instant, because the cascade only touches subtasks matching
`is_deleted: false`. -/
theorem deleteTask_no_refresh_counterexample :
    (deleteTask Examples.env0 Examples.db0 (some 7) 1).1 = .ok ∧
    ∃ s ∈ (deleteTask Examples.env0 Examples.db0 (some 7) 1).2.subtasks,
      s.taskId = 1 ∧ s.is_deleted = true ∧
      s.updated_at ≠ Examples.env0.now := by
  decide

/-- C3 (amended): after a successful delete, every subtask whose parent
reference is the deleted task has its soft-delete flag true; subtasks that
were still active are marked soft-deleted with refreshed timestamp, while
already-soft-deleted subtasks are left exactly as stored (their timestamp
is not refreshed). -/
theorem deleteTask_cascade (env : Env) (db : DB) (u taskId : ObjId)
    (hok : (deleteTask env db (some u) taskId).1 = .ok) :
    (∀ s ∈ (deleteTask env db (some u) taskId).2.subtasks,
        s.taskId = taskId → s.is_deleted = true) ∧
    (∀ s ∈ db.subtasks, s.taskId = taskId → s.is_deleted = false →
        { s with is_deleted := true, updated_at := env.now } ∈
          (deleteTask env db (some u) taskId).2.subtasks) ∧
    (∀ s ∈ db.subtasks, s.is_deleted = true →
        s ∈ (deleteTask env db (some u) taskId).2.subtasks) := by
  cases hfind : db.tasks.find? (activeOwned taskId u) with
  | none => simp [deleteTask, hfind] at hok
  | some t0 =>
    have hsubs : (deleteTask env db (some u) taskId).2.subtasks =
        db.subtasks.map (cascadeMark env taskId) := by
      simp [deleteTask, hfind]
    rw [hsubs]
    refine ⟨?_, ?_, ?_⟩
    · intro s hs ht
      obtain ⟨s0, hs0, rfl⟩ := List.mem_map.mp hs
      exact cascadeMark_deleted env taskId s0
        ((cascadeMark_taskId env taskId s0) ▸ ht)
    · intro s hs ht ha
      exact List.mem_map.mpr ⟨s, hs, cascadeMark_of_active env taskId s ht ha⟩
    · intro s hs hd
      exact List.mem_map.mpr ⟨s, hs, cascadeMark_of_deleted env taskId s hd⟩

/-- C3 (amended) witness: the concrete delete of task 1 in `Examples.db0`. -/
theorem deleteTask_cascade_witness :
    (deleteTask Examples.env0 Examples.db0 (some 7) 1).1 = .ok ∧
    ((∀ s ∈ (deleteTask Examples.env0 Examples.db0 (some 7) 1).2.subtasks,
        s.taskId = 1 → s.is_deleted = true) ∧
     (∀ s ∈ Examples.db0.subtasks, s.taskId = 1 → s.is_deleted = false →
        { s with is_deleted := true, updated_at := Examples.env0.now } ∈
          (deleteTask Examples.env0 Examples.db0 (some 7) 1).2.subtasks) ∧
     (∀ s ∈ Examples.db0.subtasks, s.is_deleted = true →
        s ∈ (deleteTask Examples.env0 Examples.db0 (some 7) 1).2.subtasks)) :=
  ⟨by decide, deleteTask_cascade Examples.env0 Examples.db0 7 1 (by decide)⟩

/-- A successful `updateTask` returns exactly the matched task with the
`$set` document applied. -/
theorem updateTask_ok_eq (env : Env) (db : DB) (u taskId : ObjId)
    (subject deadline status : Option String) (t0 t1 : Task)
    (hfind : db.tasks.find? (activeOwned taskId u) = some t0)
    (hok : (updateTask env db (some u) taskId subject deadline status).1 =
      .ok t1) :
    t1 = applyTaskUpdate env subject status
      (if truthy deadline then env.parseDate (deadline.getD "") else none)
      t0 := by
  simp only [updateTask] at hok
  split_ifs at hok ⊢ with h1 h2 h3 <;>
    (rw [hfind] at hok; simp at hok; exact hok.symm)

/-- C5: a successful update on a matched task keeps the stored value of
every field the payload did not supply, overwrites exactly the supplied
fields, and refreshes the updated-timestamp. -/
theorem updateTask_unsupplied_fields_kept (env : Env) (db : DB)
    (u taskId : ObjId) (subject deadline status : Option String)
    (t0 t1 : Task)
    (hfind : db.tasks.find? (activeOwned taskId u) = some t0)
    (hok : (updateTask env db (some u) taskId subject deadline status).1 =
      .ok t1) :
    (subject = none → t1.subject = t0.subject) ∧
    (deadline = none → t1.deadline = t0.deadline) ∧
    (status = none → t1.status = t0.status) ∧
    (∀ s, subject = some s → t1.subject = s) ∧
    (∀ st, status = some st → t1.status = st) ∧
    t1.updated_at = env.now := by
  have h := updateTask_ok_eq env db u taskId subject deadline status t0 t1
    hfind hok
  subst h
  refine ⟨?_, ?_, ?_, ?_, ?_, rfl⟩
  · rintro rfl; rfl
  · rintro rfl; simp [applyTaskUpdate, truthy]
  · rintro rfl; rfl
  · rintro s rfl; rfl
  · rintro st rfl; rfl

/-- C5 witness: updating only the subject of `task1` keeps its stored
deadline and status. -/
theorem updateTask_unsupplied_fields_kept_witness :
    Examples.db0.tasks.find? (activeOwned 1 7) = some Examples.task1 ∧
    (updateTask Examples.env0 Examples.db0 (some 7) 1 (some "New") none
        none).1 =
      .ok { Examples.task1 with subject := "New", updated_at := 100 } ∧
    (({ Examples.task1 with subject := "New", updated_at := 100 } :
        Task).deadline = Examples.task1.deadline ∧
     ({ Examples.task1 with subject := "New", updated_at := 100 } :
        Task).updated_at = Examples.env0.now) :=
  ⟨by decide, by decide,
   (updateTask_unsupplied_fields_kept Examples.env0 Examples.db0 7 1
       (some "New") none none Examples.task1
       { Examples.task1 with subject := "New", updated_at := 100 }
       (by decide) (by decide)).2.1 rfl,
   (updateTask_unsupplied_fields_kept Examples.env0 Examples.db0 7 1
       (some "New") none none Examples.task1
       { Examples.task1 with subject := "New", updated_at := 100 }
       (by decide) (by decide)).2.2.2.2.2⟩

/-- C10: a successful update never changes the matched task's identifier,
owner reference, creation timestamp, subtask-reference list or soft-delete
flag — only subject, status, deadline and the updated-timestamp can be
affected. -/
theorem updateTask_fixed_fields (env : Env) (db : DB) (u taskId : ObjId)
    (subject deadline status : Option String) (t0 t1 : Task)
    (hfind : db.tasks.find? (activeOwned taskId u) = some t0)
    (hok : (updateTask env db (some u) taskId subject deadline status).1 =
      .ok t1) :
    t1._id = t0._id ∧ t1.createdBy = t0.createdBy ∧
    t1.created_at = t0.created_at ∧ t1.subtasks = t0.subtasks ∧
    t1.is_deleted = t0.is_deleted := by
  have h := updateTask_ok_eq env db u taskId subject deadline status t0 t1
    hfind hok
  subst h
  exact ⟨rfl, rfl, rfl, rfl, rfl⟩

/-- C10 witness: updating the status of `task1` leaves owner, creation
time, subtask list and soft-delete flag as stored. -/
theorem updateTask_fixed_fields_witness :
    Examples.db0.tasks.find? (activeOwned 1 7) = some Examples.task1 ∧
    (updateTask Examples.env0 Examples.db0 (some 7) 1 none none
        (some "completed")).1 =
      .ok { Examples.task1 with status := "completed", updated_at := 100 } ∧
    ({ Examples.task1 with status := "completed", updated_at := 100 } :
        Task).createdBy = Examples.task1.createdBy :=
  ⟨by decide, by decide,
   (updateTask_fixed_fields Examples.env0 Examples.db0 7 1 none none
       (some "completed") Examples.task1
       { Examples.task1 with status := "completed", updated_at := 100 }
       (by decide) (by decide)).2.1⟩

/-- Every subtask attached by the filtered populate is active. -/
theorem mem_populateActive (db : DB) (ids : List ObjId) (s : SubTask)
    (hs : s ∈ populateActive db ids) : s.is_deleted = false := by
  simp only [populateActive, List.mem_filterMap] at hs
  obtain ⟨i, -, hi⟩ := hs
  cases hf : db.subtasks.find? (fun s2 => s2._id == i) with
  | none => rw [hf] at hi; cases hi
  | some s2 =>
    rw [hf] at hi
    by_cases hd : s2.is_deleted = true
    · simp [hd] at hi
    · simp [hd] at hi
      subst hi
      simpa using hd

/-- C7: listing as owner A only ever returns tasks owned by A that are
active, never a task of any other owner B, and every subtask attached to a
returned task is active. -/
theorem getTasks_owner_isolation (db : DB) (A : ObjId)
    (l : List (Task × List SubTask))
    (h : getTasks db (some A) = .ok l) :
    ∀ p ∈ l, p.1.createdBy = A ∧ p.1.is_deleted = false ∧
      (∀ B, B ≠ A → p.1.createdBy ≠ B) ∧
      ∀ s ∈ p.2, s.is_deleted = false := by
  simp only [getTasks, GetTasksResult.ok.injEq] at h
  subst h
  intro p hp
  obtain ⟨t, ht, rfl⟩ := List.mem_map.mp hp
  obtain ⟨hmem, hcond⟩ := List.mem_filter.mp ht
  simp at hcond
  refine ⟨hcond.1, hcond.2, ?_, ?_⟩
  · intro B hB hc
    exact hB (hc.symm.trans hcond.1)
  · intro s hs
    exact mem_populateActive db t.subtasks s hs

/-- C7 witness: in `Examples.db0` listing as owner 7 returns `task1` with
only the active `sub2` attached, and the returned task is owned by 7. -/
theorem getTasks_owner_isolation_witness :
    getTasks Examples.db0 (some 7) =
      .ok [(Examples.task1, [Examples.sub2])] ∧
    ∀ p ∈ [(Examples.task1, [Examples.sub2])],
      p.1.createdBy = 7 ∧ p.1.is_deleted = false :=
  ⟨by decide,
   fun p hp =>
     ⟨(getTasks_owner_isolation Examples.db0 7 _ (by decide) p hp).1,
      (getTasks_owner_isolation Examples.db0 7 _ (by decide) p hp).2.1⟩⟩

/-- Whatever error the bulk-replace validation loop reports is one of the
three 400 validation conditions. -/
theorem firstSpecError_isValidationError (env : Env)
    (specs : List SubtaskSpec) (e : UpdateSubtasksResult)
    (h : firstSpecError env specs = some e) : e.isValidationError = true := by
  induction specs with
  | nil => cases h
  | cons sp sps ih =>
    simp only [firstSpecError] at h
    split_ifs at h with h1 h2 h3
    · cases h; rfl
    · cases h; rfl
    · cases h; rfl
    · exact ih h

/-- If some spec of the input fails a validation check, the validation
loop reports an error. -/
theorem firstSpecError_of_invalid (env : Env) (specs : List SubtaskSpec)
    (hbad : ∃ sp ∈ specs, specInvalid env sp = true) :
    ∃ e, firstSpecError env specs = some e := by
  induction specs with
  | nil => obtain ⟨sp, h, -⟩ := hbad; cases h
  | cons sp sps ih =>
    simp only [firstSpecError]
    split_ifs with h1 h2 h3
    · exact ⟨_, rfl⟩
    · exact ⟨_, rfl⟩
    · exact ⟨_, rfl⟩
    · obtain ⟨sp2, hmem, hinv⟩ := hbad
      rcases List.mem_cons.mp hmem with rfl | hmem2
      · exfalso
        simp [specInvalid] at hinv
        simp at h1 h2 h3
        simp_all
      · exact ih ⟨sp2, hmem2, hinv⟩

/-- C2: when the parent task matches the active+owner filter and some
entry of the bulk-replace input is invalid, the request fails with a
validation error and the store — subtasks, tasks, counter — is exactly as
before the call. -/
theorem updateSubtasks_invalid_is_atomic (env : Env) (db : DB)
    (u taskId : ObjId) (specs : List SubtaskSpec)
    (htask : (db.tasks.find? (activeOwned taskId u)).isSome = true)
    (hbad : ∃ sp ∈ specs, specInvalid env sp = true) :
    (updateSubtasks env db u taskId (some specs)).1.isValidationError =
      true ∧
    (updateSubtasks env db u taskId (some specs)).2 = db := by
  obtain ⟨t0, hfind⟩ := Option.isSome_iff_exists.mp htask
  obtain ⟨e, he⟩ := firstSpecError_of_invalid env specs hbad
  have hv := firstSpecError_isValidationError env specs e he
  simp [updateSubtasks, hfind, he, hv]

/-- C2 witness: a bulk replace on task 1 whose single spec has a past
deadline is rejected and `Examples.db0` is untouched. -/
theorem updateSubtasks_invalid_is_atomic_witness :
    (Examples.db0.tasks.find? (activeOwned 1 7)).isSome = true ∧
    specInvalid Examples.env0 ⟨some "A", some "past", none⟩ = true ∧
    (updateSubtasks Examples.env0 Examples.db0 7 1
        (some [⟨some "A", some "past", none⟩])).1.isValidationError =
      true ∧
    (updateSubtasks Examples.env0 Examples.db0 7 1
        (some [⟨some "A", some "past", none⟩])).2 = Examples.db0 :=
  ⟨by decide, by decide,
   (updateSubtasks_invalid_is_atomic Examples.env0 Examples.db0 7 1
       [⟨some "A", some "past", none⟩] (by decide)
       ⟨⟨some "A", some "past", none⟩, by simp, by decide⟩).1,
   (updateSubtasks_invalid_is_atomic Examples.env0 Examples.db0 7 1
       [⟨some "A", some "past", none⟩] (by decide)
       ⟨⟨some "A", some "past", none⟩, by simp, by decide⟩).2⟩

/-- The creation loop saves one new subtask per input spec. -/
theorem mkNewSubtasks_length (env : Env) (tid n : ObjId)
    (specs : List SubtaskSpec) :
    (mkNewSubtasks env tid n specs).length = specs.length := by
  induction specs generalizing n with
  | nil => rfl
  | cons sp sps ih => simp [mkNewSubtasks, ih]

/-- Every subtask saved by the creation loop references the parent task
and carries an identifier at or above the allocation start. -/
theorem mkNewSubtasks_mem (env : Env) (tid n : ObjId)
    (specs : List SubtaskSpec) (s : SubTask)
    (hs : s ∈ mkNewSubtasks env tid n specs) :
    s.taskId = tid ∧ n ≤ s._id := by
  induction specs generalizing n with
  | nil => cases hs
  | cons sp sps ih =>
    rcases List.mem_cons.mp hs with rfl | h2
    · exact ⟨rfl, Nat.le_refl _⟩
    · obtain ⟨h1, h2b⟩ := ih (n + 1) h2
      exact ⟨h1, Nat.le_of_succ_le h2b⟩

/-- `findByIdAndUpdate` then `findById`: looking the id up after updating
the first id-match returns the updated document, for an id-preserving
update. -/
theorem find?_updateFirst_id (taskId : ObjId) (f : Task → Task)
    (hf : ∀ t, (f t)._id = t._id) (ts : List Task) :
    (updateFirst (fun t => t._id == taskId) f ts).find?
        (fun t => t._id == taskId) =
      (ts.find? (fun t => t._id == taskId)).map f := by
  induction ts with
  | nil => rfl
  | cons t ts ih =>
    by_cases hp : (t._id == taskId) = true
    · have hfp : ((f t)._id == taskId) = true := by rw [hf]; exact hp
      simp only [updateFirst, if_pos hp, List.find?, hfp, hp]
      rfl
    · have hp2 : (t._id == taskId) = false := by simpa using hp
      simp only [updateFirst, if_neg hp, List.find?, hp2]
      exact ih

/-- A successful bulk replace returns exactly the freshly created
subtasks, appends them to the cascade-marked subtask collection, and
rewrites the first id-match among the tasks with the new reference list. -/
theorem updateSubtasks_ok_eq (env : Env) (db : DB) (u taskId : ObjId)
    (specs : List SubtaskSpec) (l : List SubTask)
    (hok : (updateSubtasks env db u taskId (some specs)).1 = .ok l) :
    l = mkNewSubtasks env taskId db.nextId specs ∧
    (updateSubtasks env db u taskId (some specs)).2.subtasks =
      db.subtasks.map (cascadeMark env taskId) ++ l ∧
    (updateSubtasks env db u taskId (some specs)).2.tasks =
      updateFirst (fun t => t._id == taskId)
        (fun t => { t with subtasks := l.map (fun s => s._id),
                           updated_at := env.now }) db.tasks := by
  cases hfind : db.tasks.find? (activeOwned taskId u) with
  | none => simp [updateSubtasks, hfind] at hok
  | some t0 =>
    cases he : firstSpecError env specs with
    | some e =>
      have hv := firstSpecError_isValidationError env specs e he
      simp [updateSubtasks, hfind, he] at hok
      rw [hok] at hv
      cases hv
    | none =>
      have hl : l = mkNewSubtasks env taskId db.nextId specs := by
        simp [updateSubtasks, hfind, he] at hok
        exact hok.symm
      subst hl
      refine ⟨rfl, ?_, ?_⟩ <;> simp [updateSubtasks, hfind, he]

/-- After a successful bulk replace, looking up the parent by id yields
the stored parent with its subtask-reference list replaced by exactly the
new identifiers and its timestamp refreshed. -/
theorem updateSubtasks_parent_list (env : Env) (db : DB) (u taskId : ObjId)
    (specs : List SubtaskSpec) (l : List SubTask)
    (hok : (updateSubtasks env db u taskId (some specs)).1 = .ok l) :
    ∃ tOld, db.tasks.find? (fun t => t._id == taskId) = some tOld ∧
      (updateSubtasks env db u taskId (some specs)).2.tasks.find?
          (fun t => t._id == taskId) =
        some { tOld with subtasks := l.map (fun s => s._id),
                         updated_at := env.now } := by
  obtain ⟨-, -, htasks⟩ := updateSubtasks_ok_eq env db u taskId specs l hok
  have hexists : (db.tasks.find? (fun t => t._id == taskId)).isSome = true := by
    cases hfind : db.tasks.find? (activeOwned taskId u) with
    | none => simp [updateSubtasks, hfind] at hok
    | some t0 =>
      rw [List.find?_isSome]
      have hmem := List.mem_of_find?_eq_some hfind
      have hcond := List.find?_some hfind
      simp [activeOwned] at hcond
      exact ⟨t0, hmem, by simp [hcond.1.1]⟩
  obtain ⟨tOld, hOld⟩ := Option.isSome_iff_exists.mp hexists
  refine ⟨tOld, hOld, ?_⟩
  rw [htasks,
    find?_updateFirst_id taskId
      (fun t => { t with subtasks := l.map (fun s => s._id),
                         updated_at := env.now })
      (fun t => rfl) db.tasks,
    hOld]
  rfl

/-- C8: a fully validated bulk replace creates one brand-new subtask per
input spec — each referencing the parent and carrying an identifier
distinct from every subtask stored before the call, even if its content
matches an old subtask — soft-deletes every still-active old subtask of
the parent, and replaces the parent's subtask-reference list wholesale
with exactly the new identifiers. -/
theorem updateSubtasks_replaces_all (env : Env) (db : DB) (u taskId : ObjId)
    (specs : List SubtaskSpec) (l : List SubTask)
    (hfresh : ∀ s ∈ db.subtasks, s._id < db.nextId)
    (hok : (updateSubtasks env db u taskId (some specs)).1 = .ok l) :
    l.length = specs.length ∧
    (∀ s ∈ l, s.taskId = taskId ∧ (∀ s0 ∈ db.subtasks, s._id ≠ s0._id) ∧
      s ∈ (updateSubtasks env db u taskId (some specs)).2.subtasks) ∧
    (∀ s0 ∈ db.subtasks, s0.taskId = taskId → s0.is_deleted = false →
      { s0 with is_deleted := true, updated_at := env.now } ∈
        (updateSubtasks env db u taskId (some specs)).2.subtasks) ∧
    (∃ tOld, db.tasks.find? (fun t => t._id == taskId) = some tOld ∧
      (updateSubtasks env db u taskId (some specs)).2.tasks.find?
          (fun t => t._id == taskId) =
        some { tOld with subtasks := l.map (fun s => s._id),
                         updated_at := env.now }) := by
  obtain ⟨hl, hsubs, -⟩ := updateSubtasks_ok_eq env db u taskId specs l hok
  refine ⟨?_, ?_, ?_, ?_⟩
  · rw [hl, mkNewSubtasks_length]
  · intro s hs
    have hs2 := hs
    rw [hl] at hs2
    obtain ⟨ht, hid⟩ := mkNewSubtasks_mem env taskId db.nextId specs s hs2
    refine ⟨ht, ?_, ?_⟩
    · intro s0 h0 heq
      have h2 : db.nextId ≤ s0._id := heq ▸ hid
      exact absurd (hfresh s0 h0) (Nat.not_lt.mpr h2)
    · rw [hsubs]
      exact List.mem_append_right _ hs
  · intro s0 h0 ht ha
    rw [hsubs]
    exact List.mem_append_left _
      (List.mem_map.mpr ⟨s0, h0, cascadeMark_of_active env taskId s0 ht ha⟩)
  · exact updateSubtasks_parent_list env db u taskId specs l hok

/-- C8 witness: replacing task 1's subtasks with one spec in
`Examples.db0` creates one subtask whose identifier 4 is fresh. -/
theorem updateSubtasks_replaces_all_witness :
    (∀ s ∈ Examples.db0.subtasks, s._id < Examples.db0.nextId) ∧
    (updateSubtasks Examples.env0 Examples.db0 7 1
        (some [⟨some "B", some "future", none⟩])).1 =
      .ok (mkNewSubtasks Examples.env0 1 4
        [⟨some "B", some "future", none⟩]) ∧
    (mkNewSubtasks Examples.env0 1 4
        [⟨some "B", some "future", none⟩]).length = 1 :=
  ⟨by decide, by decide,
   (updateSubtasks_replaces_all Examples.env0 Examples.db0 7 1
       [⟨some "B", some "future", none⟩]
       (mkNewSubtasks Examples.env0 1 4 [⟨some "B", some "future", none⟩])
       (by decide) (by decide)).1⟩

/-- C9: a bulk replace with the empty array on a matched parent succeeds
with an empty result, soft-deletes every still-active subtask of the
parent (afterwards no subtask of the parent is active), and sets the
parent's subtask-reference list to empty — the empty input acts as
delete-all, not as an error. -/
theorem updateSubtasks_empty_clears (env : Env) (db : DB) (u taskId : ObjId)
    (htask : (db.tasks.find? (activeOwned taskId u)).isSome = true) :
    (updateSubtasks env db u taskId (some [])).1 = .ok [] ∧
    (∀ s ∈ (updateSubtasks env db u taskId (some [])).2.subtasks,
        s.taskId = taskId → s.is_deleted = true) ∧
    (∀ s0 ∈ db.subtasks, s0.taskId = taskId → s0.is_deleted = false →
      { s0 with is_deleted := true, updated_at := env.now } ∈
        (updateSubtasks env db u taskId (some [])).2.subtasks) ∧
    (∃ tOld, db.tasks.find? (fun t => t._id == taskId) = some tOld ∧
      (updateSubtasks env db u taskId (some [])).2.tasks.find?
          (fun t => t._id == taskId) =
        some { tOld with subtasks := [], updated_at := env.now }) := by
  obtain ⟨t0, hfind⟩ := Option.isSome_iff_exists.mp htask
  have hok : (updateSubtasks env db u taskId (some [])).1 = .ok [] := by
    simp [updateSubtasks, hfind, firstSpecError, mkNewSubtasks]
  obtain ⟨-, hsubs, -⟩ := updateSubtasks_ok_eq env db u taskId [] [] hok
  refine ⟨hok, ?_, ?_, ?_⟩
  · rw [hsubs]
    intro s hs ht
    rw [List.append_nil] at hs
    obtain ⟨s0, h0, rfl⟩ := List.mem_map.mp hs
    exact cascadeMark_deleted env taskId s0
      ((cascadeMark_taskId env taskId s0) ▸ ht)
  · intro s0 h0 ht ha
    rw [hsubs]
    exact List.mem_append_left _
      (List.mem_map.mpr ⟨s0, h0, cascadeMark_of_active env taskId s0 ht ha⟩)
  · exact updateSubtasks_parent_list env db u taskId [] [] hok

/-- C9 witness: the empty-array replace on task 1 in `Examples.db0`. -/
theorem updateSubtasks_empty_clears_witness :
    (Examples.db0.tasks.find? (activeOwned 1 7)).isSome = true ∧
    (updateSubtasks Examples.env0 Examples.db0 7 1 (some [])).1 = .ok [] ∧
    (∀ s ∈ (updateSubtasks Examples.env0 Examples.db0 7 1
        (some [])).2.subtasks, s.taskId = 1 → s.is_deleted = true) :=
  ⟨by decide,
   (updateSubtasks_empty_clears Examples.env0 Examples.db0 7 1
     (by decide)).1,
   (updateSubtasks_empty_clears Examples.env0 Examples.db0 7 1
     (by decide)).2.1⟩

end TaskMgmt
